import Mathlib

/-!
Shallow embedding of the claude-chatgpt-mcp repository's asynchronous
image-generation core, verified against its natural-language specification.

Embedded source files:
* `src/utils/security.ts` — `sanitizeForAppleScript`, `validateSavePath`,
  `RateLimiter` (the `globalRateLimiter` instance is `new RateLimiter(5, 60000)`);
* `src/utils/applescript.ts` — `runAppleScript` retry loop and `isRetryableError`;
* `src/services/async-image-generation.ts` — `AsyncGenerationTracker`,
  `startImageGeneration`, `checkGenerationStatus`, `cleanup`, and the detached
  failure callback installed by `startImageGeneration`.

Modelling conventions:
* JavaScript strings are Lean `String`s; all character-level operations
  (`trim`, `toLowerCase`, regex replaces, `split`) are re-implemented on
  `List Char` by structural recursion so that every definition evaluates
  inside the kernel.  Prompts in this code are plain text, so JS UTF-16
  `length` coincides with the character count used here.
* `Date.now()` timestamps are `Int` (milliseconds), matching JS number
  arithmetic on the relevant comparisons.
* JS `Map`s become association lists without duplicate keys; `Map.get`,
  `Map.set`, `Map.delete` become `mapGet`, `mapSet`, `mapDelete`, which
  preserve insertion order exactly as JS `Map` iteration does.
* `uuidv4()` ids are modelled as consecutive naturals drawn from a counter
  (`nextId`), capturing exactly the freshness the code relies on.
* Exceptions thrown via `createError(message, code, retryable)` are modelled
  as `Except String _` carrying the `code` string; `withErrorHandling`
  re-throws errors that already carry a `code` unchanged, so the surfaced
  code is the one at the throw site.
-/

/-! ### Character-list string primitives -/

/-- Whitespace recognised by JS `String.prototype.trim` (the characters that
can occur in this code's inputs). -/
def isWsChar (c : Char) : Bool :=
  c = ' ' || c = '\t' || c = '\n' || c = '\r'

/-- JS `s.trim()` on the character list. -/
def trimChars (cs : List Char) : List Char :=
  ((cs.dropWhile isWsChar).reverse.dropWhile isWsChar).reverse

/-- JS `s.trim()`. -/
def trimStr (s : String) : String := String.mk (trimChars s.data)

/-- JS `s.length` (code units; the strings here are plain text). -/
def strLen (s : String) : Nat := s.data.length

/-- ASCII lowering, as `String.prototype.toLowerCase` acts on the ASCII
error messages and extensions in this code. -/
def lowerChar (c : Char) : Char :=
  if 'A' ≤ c ∧ c ≤ 'Z' then Char.ofNat (c.toNat + 32) else c

/-- JS `s.toLowerCase()`. -/
def lowerStr (s : String) : String := String.mk (s.data.map lowerChar)

/-- Is `p` a prefix of `s` (character lists)? -/
def isPrefixChars : List Char → List Char → Bool
  | [], _ => true
  | _ :: _, [] => false
  | a :: as, b :: bs => a = b && isPrefixChars as bs

/-- JS `s.startsWith(p)`. -/
def startsWithStr (s p : String) : Bool := isPrefixChars p.data s.data

/-- JS `hay.includes(pat)` (substring containment). -/
def containsSub : List Char → List Char → Bool
  | [], pat => pat.isEmpty
  | c :: rest, pat => isPrefixChars pat (c :: rest) || containsSub rest pat

/-- JS `hay.includes(pat)` on strings. -/
def containsStr (hay pat : String) : Bool := containsSub hay.data pat.data

/-- Character-by-character expansion, the shape of the JS global-regex
single-character `replace` calls used by the sanitizer. -/
def expandChars (f : Char → List Char) : List Char → List Char
  | [] => []
  | c :: rest => f c ++ expandChars f rest

/-- Split a character list on a separator, as JS `s.split(sep)` /
Node path segmentation. -/
def splitOnChar (sep : Char) : List Char → List (List Char)
  | [] => [[]]
  | c :: rest =>
    let r := splitOnChar sep rest
    if c = sep then [] :: r
    else
      match r with
      | h :: t => (c :: h) :: t
      | [] => [[c]]

/-- Join segments with a separator character. -/
def joinChars (sep : Char) : List (List Char) → List Char
  | [] => []
  | [s] => s
  | s :: rest => s ++ sep :: joinChars sep rest

/-! ### Association-list model of JS `Map` -/

/-- `Map.get`. -/
def mapGet {κ α : Type} [DecidableEq κ] : List (κ × α) → κ → Option α
  | [], _ => none
  | (k', v) :: rest, k => if k' = k then some v else mapGet rest k

/-- `Map.set`: update in place when the key exists, otherwise append
(preserving JS `Map` insertion order). -/
def mapSet {κ α : Type} [DecidableEq κ] : List (κ × α) → κ → α → List (κ × α)
  | [], k, v => [(k, v)]
  | (k', v') :: rest, k, v =>
    if k' = k then (k, v) :: rest else (k', v') :: mapSet rest k v

/-- `Map.delete`. -/
def mapDelete {κ α : Type} [DecidableEq κ] (l : List (κ × α)) (k : κ) : List (κ × α) :=
  l.filter (fun p => !(p.1 = k : Bool))

deriving instance DecidableEq for Except

/-! ### `src/utils/security.ts` — sanitizer -/

/-- `sanitizeForAppleScript` (src/utils/security.ts:11-25).  The
`typeof input !== 'string'` guard is outside a typed embedding; the falsy
(`""`) rejection is kept.  The eight chained `replace` calls are applied in
source order.  The error carries the spec's `InvalidInput` classification of
the thrown `Error('Invalid input for AppleScript sanitization')`. -/
def sanitizeForAppleScript (input : String) : Except String String :=
  if input = "" then .error "INVALID_INPUT"
  else
    let s1 := expandChars (fun c => if c = '\\' then ['\\', '\\'] else [c]) input.data
    let s2 := expandChars (fun c => if c = '"' then ['\\', '"'] else [c]) s1
    let s3 := expandChars (fun c => if c = '\'' then ['\\', '\''] else [c]) s2
    let s4 := expandChars (fun c => if c = '\n' then ['\\', 'n'] else [c]) s3
    let s5 := expandChars (fun c => if c = '\r' then ['\\', 'r'] else [c]) s4
    let s6 := expandChars (fun c => if c = '\t' then ['\\', 't'] else [c]) s5
    let s7 := s6.filter (fun c => !(c = '\x00' : Bool))
    let s8 := s7.filter (fun c => !(c.toNat < 0x20 || c.toNat = 0x7F : Bool))
    .ok (String.mk s8)

/-! ### `src/utils/security.ts` — path validation

Node `path` on macOS is the posix implementation: separator `/`. -/

/-- posix `path.resolve(p)` with the process working directory made
explicit (`cwd` must be absolute).  Produces a normalised absolute path
with no trailing separator (except the root `/`). -/
def pathResolve (cwd p : String) : String :=
  let absStr := if startsWithStr p "/" then p else cwd ++ "/" ++ p
  let segs := splitOnChar '/' absStr.data
  let stack := segs.foldl
    (fun acc seg =>
      if seg = [] ∨ seg = ['.'] then acc
      else if seg = ['.', '.'] then acc.dropLast
      else acc ++ [seg]) []
  if stack = [] then "/" else String.mk ('/' :: joinChars '/' stack)

/-- posix `path.basename` restricted to already-resolved paths (which carry
no trailing separator). -/
def baseNameStr (s : String) : String :=
  String.mk ((splitOnChar '/' s.data).getLastD [])

/-- Index of the last `'.'` in a character list. -/
def lastDotIdxAux : List Char → Nat → Option Nat
  | [], _ => none
  | c :: rest, i =>
    match lastDotIdxAux rest (i + 1) with
    | some j => some j
    | none => if c = '.' then some i else none

/-- posix `path.extname` on a basename that does not start with `'.'`
(the only case reached by `validateSavePath`): the suffix from the last
dot, empty when there is no dot or the dot is the first character. -/
def extnameStr (name : String) : String :=
  match lastDotIdxAux name.data 0 with
  | none => ""
  | some 0 => ""
  | some i => String.mk (name.data.drop i)

/-- Failure classes of `validateSavePath`, one per `throw` site, named by
the spec's error taxonomy. -/
inductive PathError where
  | invalidInput
  | pathTraversal
  | invalidFilename
  | invalidExtension
deriving DecidableEq

/-- Allowed image extensions (src/utils/security.ts:59). -/
def allowedExtensions : List String := [".png", ".jpg", ".jpeg", ".gif", ".webp"]

/-- `validateSavePath` (src/utils/security.ts:30-65), with the process
working directory `cwd` explicit (used by `path.resolve` for relative
inputs). -/
def validateSavePath (cwd customPath allowedBaseDir : String) : Except PathError String :=
  if customPath = "" then .error .invalidInput
  else if allowedBaseDir = "" then .error .invalidInput
  else
    let cleanPath := String.mk (customPath.data.filter (fun c => !(c = '\x00' : Bool)))
    let resolvedPath := pathResolve cwd cleanPath
    let allowedPath := pathResolve cwd allowedBaseDir
    if !(startsWithStr resolvedPath (allowedPath ++ "/") || resolvedPath = allowedPath) then
      .error .pathTraversal
    else
      let fileName := baseNameStr resolvedPath
      if fileName = "" ∨ startsWithStr fileName "." ∨ strLen fileName > 255 then
        .error .invalidFilename
      else
        let ext := lowerStr (extnameStr fileName)
        if ext ≠ "" ∧ !(allowedExtensions.contains ext) then
          .error .invalidExtension
        else
          .ok resolvedPath

/-! ### `src/utils/security.ts` — rate limiter -/

/-- `RateLimiter` (src/utils/security.ts:70-111): per-key request
timestamps with a sliding window. -/
structure RateLimiter where
  requests : List (String × List Int)
  maxRequests : Nat
  windowMs : Int
deriving DecidableEq

/-- `RateLimiter.isAllowed` (src/utils/security.ts:83-99), with `Date.now()`
made the explicit argument `now`.  Returns the boolean answer together with
the successor limiter state. -/
def RateLimiter.isAllowed (rl : RateLimiter) (identifier : String) (now : Int) :
    Bool × RateLimiter :=
  let requests := (mapGet rl.requests identifier).getD []
  let validRequests := requests.filter (fun time => (now - time < rl.windowMs : Bool))
  if validRequests.length ≥ rl.maxRequests then
    (false, rl)
  else
    (true, { rl with requests := mapSet rl.requests identifier (validRequests ++ [now]) })

/-- `RateLimiter.getRemainingRequests` (src/utils/security.ts:104-110). -/
def RateLimiter.getRemainingRequests (rl : RateLimiter) (identifier : String) (now : Int) : Nat :=
  let requests := (mapGet rl.requests identifier).getD []
  let validRequests := requests.filter (fun time => (now - time < rl.windowMs : Bool))
  rl.maxRequests - validRequests.length

/-- `globalRateLimiter = new RateLimiter(5, 60000)` (src/utils/security.ts:114). -/
def globalRateLimiter : RateLimiter := { requests := [], maxRequests := 5, windowMs := 60000 }

/-! ### `src/utils/applescript.ts` — executor with retries -/

/-- `AppleScriptResult` (src/core/types.ts:56-60). -/
structure AppleScriptResult where
  success : Bool
  data : Option String
  error : Option String
deriving DecidableEq

/-- The transient-error patterns of `isRetryableError`
(src/utils/applescript.ts:47-59). -/
def retryableErrors : List String :=
  ["application is not running", "connection timed out", "busy",
   "temporary", "network", "timeout"]

/-- `isRetryableError` (src/utils/applescript.ts:47-59). -/
def isRetryableError (errorMessage : String) : Bool :=
  let lowerError := lowerStr errorMessage
  retryableErrors.any (fun pattern => containsStr lowerError pattern)

/-- One iteration of the `runAppleScript` retry loop
(src/utils/applescript.ts:13-36).  `outcome attempt` is the result of the
external `runAppleScriptNative` call on that attempt (`.ok` = resolved,
`.error` = rejected with that message).  Besides the result, the list of
`setTimeout` delays (milliseconds) awaited before each retry is returned.
The fuel argument mirrors the bounded `for` loop; starting it at `retries`
makes it run out exactly when the loop would fall through to the
"Max retries exceeded" return (src/utils/applescript.ts:38-41). -/
def runAttempts (outcome : Nat → Except String String) (retries : Nat) :
    Nat → Nat → AppleScriptResult × List Nat
  | _, 0 => (⟨false, none, some "Max retries exceeded"⟩, [])
  | attempt, fuel + 1 =>
    match outcome attempt with
    | .ok r => (⟨true, some r, none⟩, [])
    | .error msg =>
      if attempt < retries && isRetryableError msg then
        let delay := min (1000 * 2 ^ (attempt - 1)) 5000
        let rest := runAttempts outcome retries (attempt + 1) fuel
        (rest.1, delay :: rest.2)
      else
        (⟨false, none, some msg⟩, [])

/-- `runAppleScript(script, retries = 3)` (src/utils/applescript.ts:12-42),
abstracted over the script (which only feeds the opaque external call) by
the per-attempt outcomes. -/
def runAppleScript (outcome : Nat → Except String String) (retries : Nat := 3) :
    AppleScriptResult × List Nat :=
  runAttempts outcome retries 1 retries

/-! ### `src/services/async-image-generation.ts` — data model -/

/-- The `status` string-literal union of `GenerationStatus`
(src/core/types.ts:65). -/
inductive GStatus where
  | pending
  | generating
  | completed
  | failed
deriving DecidableEq

/-- `GenerationStatus` (src/core/types.ts:63-70). -/
structure GenerationStatus where
  id : Nat
  status : GStatus
  prompt : String
  timestamp : Int
  error : Option String
  imagePath : Option String
deriving DecidableEq

/-- `AsyncImageGeneration` (src/core/types.ts:72-79). -/
structure AsyncImageGeneration where
  id : Nat
  prompt : String
  style : Option String
  size : Option String
  conversation_id : Option String
  started_at : Int
deriving DecidableEq

/-- `AsyncGenerationTracker`'s two maps
(src/services/async-image-generation.ts:12-14). -/
structure AsyncGenerationTracker where
  activeGenerations : List (Nat × AsyncImageGeneration)
  completedGenerations : List (Nat × GenerationStatus)
deriving DecidableEq

/-- `MAX_ACTIVE` (src/services/async-image-generation.ts:17). -/
def MAX_ACTIVE : Nat := 50

/-- `MAX_COMPLETED` (src/services/async-image-generation.ts:18). -/
def MAX_COMPLETED : Nat := 100

/-- `AsyncGenerationTracker.getStatus` (src/services/async-image-generation.ts:20-40).
The `!id || typeof id !== 'string'` guard is subsumed by typing ids. -/
def AsyncGenerationTracker.getStatus (t : AsyncGenerationTracker) (id : Nat) :
    Option GenerationStatus :=
  match mapGet t.completedGenerations id with
  | some completed => some completed
  | none =>
    match mapGet t.activeGenerations id with
    | some active =>
      some { id := active.id, status := .generating, prompt := active.prompt,
             timestamp := active.started_at, error := none, imagePath := none }
    | none => none

/-- Stable ascending insertion, mirroring the stable JS `Array.sort` with
comparator `a.field - b.field` used by `cleanup`. -/
def insSorted {α : Type} (f : α → Int) (x : Nat × α) :
    List (Nat × α) → List (Nat × α)
  | [] => [x]
  | y :: rest => if f x.2 < f y.2 then x :: y :: rest else y :: insSorted f x rest

/-- Stable sort by an `Int` key (JS `Array.sort` is stable). -/
def sortByKey {α : Type} (f : α → Int) (l : List (Nat × α)) : List (Nat × α) :=
  l.foldl (fun acc x => insSorted f x acc) []

/-- `AsyncGenerationTracker.cleanup` (src/services/async-image-generation.ts:42-69)
with `Date.now()` explicit: age-based eviction of completed statuses, then
oldest-first trimming of both maps to their size caps. -/
def AsyncGenerationTracker.cleanup (t : AsyncGenerationTracker) (now : Int) :
    AsyncGenerationTracker :=
  let oneHourAgo := now - 60 * 60 * 1000
  let completedAged := t.completedGenerations.filter
    (fun p => !(p.2.timestamp < oneHourAgo : Bool))
  let active1 :=
    if t.activeGenerations.length > MAX_ACTIVE then
      let sortedActive := sortByKey (fun a => a.started_at) t.activeGenerations
      let toRemove := (sortedActive.take (t.activeGenerations.length - MAX_ACTIVE)).map (·.1)
      t.activeGenerations.filter (fun p => !(toRemove.contains p.1))
    else t.activeGenerations
  let completed1 :=
    if completedAged.length > MAX_COMPLETED then
      let sortedCompleted := sortByKey (fun s => s.timestamp) completedAged
      let toRemove := (sortedCompleted.take (completedAged.length - MAX_COMPLETED)).map (·.1)
      completedAged.filter (fun p => !(toRemove.contains p.1))
    else completedAged
  { activeGenerations := active1, completedGenerations := completed1 }

/-! ### `src/services/async-image-generation.ts` — operations -/

/-- The parsed result of `pollChatGPTUI`
(src/services/async-image-generation.ts:347-397). -/
structure UIStatus where
  isGenerating : Bool
  hasRecentImage : Bool
  imageCount : Nat
deriving DecidableEq

/-- The whole in-memory state the service closes over: the module-level
`tracker`, the `globalRateLimiter`, and the uuid source (modelled as a
counter issuing fresh naturals). -/
structure World where
  tracker : AsyncGenerationTracker
  limiter : RateLimiter
  nextId : Nat
deriving DecidableEq

/-- The empty state at module load. -/
def initialWorld : World :=
  { tracker := { activeGenerations := [], completedGenerations := [] },
    limiter := globalRateLimiter,
    nextId := 0 }

/-- `startImageGeneration` (src/services/async-image-generation.ts:83-141)
with `Date.now()` explicit.  Returns `.ok id` or `.error code` (the
`createError` code string: `withErrorHandling` re-throws coded errors
unchanged) together with the successor state.  The detached
`triggerSecureImageGeneration(...).catch(...)` call mutates no state here;
its failure callback is the separate transition `triggerFailure` below. -/
def startImageGeneration (w : World) (prompt : String)
    (style size conversation_id : Option String) (now : Int) :
    Except String Nat × World :=
  if prompt = "" ∨ trimStr prompt = "" then
    (.error "INVALID_INPUT", w)
  else if strLen prompt > 4000 then
    (.error "PROMPT_TOO_LONG", w)
  else
    let allowedPair := w.limiter.isAllowed "start_image_generation" now
    if allowedPair.1 = false then
      (.error "RATE_LIMITED", { w with limiter := allowedPair.2 })
    else if w.tracker.activeGenerations.length ≥ 10 then
      (.error "BATCH_LIMIT_EXCEEDED", { w with limiter := allowedPair.2 })
    else
      let id := w.nextId
      let generation : AsyncImageGeneration :=
        { id := id, prompt := trimStr prompt, style := style, size := size,
          conversation_id := conversation_id, started_at := now }
      (.ok id,
       { tracker :=
           { w.tracker with
             activeGenerations := mapSet w.tracker.activeGenerations id generation },
         limiter := allowedPair.2,
         nextId := w.nextId + 1 })

/-- The `.catch` handler installed by `startImageGeneration`
(src/services/async-image-generation.ts:128-138): it fires out-of-band when
the detached trigger call rejects, marking the id failed and removing it
from the active map.  `prompt` is the trimmed prompt the handler closed
over and `err` the sanitized error message. -/
def triggerFailure (t : AsyncGenerationTracker) (id : Nat) (prompt err : String)
    (now : Int) : AsyncGenerationTracker :=
  { activeGenerations := mapDelete t.activeGenerations id,
    completedGenerations :=
      mapSet t.completedGenerations id
        { id := id, status := .failed, prompt := prompt, timestamp := now,
          error := some err, imagePath := none } }

/-- `checkGenerationStatus` (src/services/async-image-generation.ts:146-195)
with the UI poll and `Date.now()` explicit.  `ui = some u` is the parsed
`pollChatGPTUI` result; `ui = none` is the (swallowed) exception path of the
surrounding `try`/`catch`.  Returns the reported status together with the
successor tracker. -/
def checkGenerationStatus (t : AsyncGenerationTracker) (id : Nat)
    (ui : Option UIStatus) (now : Int) :
    Option GenerationStatus × AsyncGenerationTracker :=
  match t.getStatus id with
  | none => (none, t)
  | some status =>
    if status.status = GStatus.generating then
      match ui with
      | none => (some status, t)
      | some uiStatus =>
        if uiStatus.isGenerating = false ∧ uiStatus.hasRecentImage = true ∧
            uiStatus.imageCount > 0 then
          let record : GenerationStatus :=
            { id := id, status := .completed, prompt := status.prompt,
              timestamp := now, error := none, imagePath := none }
          (some record,
           { activeGenerations := mapDelete t.activeGenerations id,
             completedGenerations := mapSet t.completedGenerations id record })
        else if status.timestamp < now - 30 * 60 * 1000 then
          let record : GenerationStatus :=
            { id := id, status := .failed, prompt := status.prompt,
              timestamp := now, error := some "Generation timeout",
              imagePath := none }
          (some record,
           { activeGenerations := mapDelete t.activeGenerations id,
             completedGenerations := mapSet t.completedGenerations id record })
        else
          (some status, t)
    else
      (some status, t)

/-! ### Trace semantics

The service is single-threaded; its observable transitions are the exported
operations plus the detached failure callback and the periodic cleanup. -/

/-- One observable transition of the service. -/
inductive Event where
  | start (prompt : String) (style size conv : Option String) (now : Int)
  | check (id : Nat) (ui : Option UIStatus) (now : Int)
  | triggerFail (id : Nat) (prompt err : String) (now : Int)
  | cleanupTick (now : Int)
deriving DecidableEq

/-- Apply one event to the world. -/
def stepWorld (w : World) (e : Event) : World :=
  match e with
  | .start prompt style size conv now =>
    (startImageGeneration w prompt style size conv now).2
  | .check id ui now =>
    { w with tracker := (checkGenerationStatus w.tracker id ui now).2 }
  | .triggerFail id prompt err now =>
    { w with tracker := triggerFailure w.tracker id prompt err now }
  | .cleanupTick now =>
    { w with tracker := w.tracker.cleanup now }

/-- An event is feasible in a state: the detached failure callback can only
fire for an id that some earlier `start` actually issued. -/
def eventOK (w : World) : Event → Bool
  | .triggerFail id _ _ _ => id < w.nextId
  | _ => true

/-- Run a list of events. -/
def runEvents (w : World) (es : List Event) : World := es.foldl stepWorld w

/-- Every event of the trace is feasible in the state it fires from. -/
def okTrace : World → List Event → Bool
  | _, [] => true
  | w, e :: es => eventOK w e && okTrace (stepWorld w e) es

/-! ### Derived notions used by the claims -/

/-- The candidate path as `validateSavePath` resolves it: null bytes
stripped, then `path.resolve` against the working directory. -/
def resolvedOf (cwd p : String) : String :=
  pathResolve cwd (String.mk (p.data.filter (fun c => !(c = '\x00' : Bool))))

/-- "Equal to or nested under the resolved root", the spec's containment
condition, exactly as the code tests it. -/
def insideRoot (resolved allowed : String) : Bool :=
  startsWithStr resolved (allowed ++ "/") || resolved = allowed

/-- A 4001-character prompt (over the 4000-character limit). -/
def longPrompt : String := String.mk (List.replicate 4001 'a')

/-- State invariant of the tracker world: every stored id was issued by the
counter, the two maps never share an id, and completed records only carry
terminal statuses. -/
structure WorldInv (w : World) : Prop where
  activeBound : ∀ p ∈ w.tracker.activeGenerations, p.1 < w.nextId
  completedBound : ∀ p ∈ w.tracker.completedGenerations, p.1 < w.nextId
  keysApart : ∀ p ∈ w.tracker.activeGenerations,
    ∀ q ∈ w.tracker.completedGenerations, p.1 ≠ q.1
  terminalOnly : ∀ p ∈ w.tracker.completedGenerations,
    p.2.status = GStatus.completed ∨ p.2.status = GStatus.failed

/-- An id that has left the active map for good: no active entry carries
it, and the counter has moved past it (so no future `start` can reuse it). -/
def IdRetired (w : World) (id : Nat) : Prop :=
  (∀ p ∈ w.tracker.activeGenerations, p.1 ≠ id) ∧ id < w.nextId

/-- Ten spaced `start` calls: five at t = 0 and five at t = 61000, each
inside the rate limit of its own minute window, leaving ten active jobs. -/
def tenStarts : List Event :=
  [Event.start "p1" none none none 0, Event.start "p2" none none none 0,
   Event.start "p3" none none none 0, Event.start "p4" none none none 0,
   Event.start "p5" none none none 0,
   Event.start "p6" none none none 61000, Event.start "p7" none none none 61000,
   Event.start "p8" none none none 61000, Event.start "p9" none none none 61000,
   Event.start "p10" none none none 61000]

/-! ### Association-list lemmas -/

theorem mapGet_mem {κ α : Type} [DecidableEq κ] {m : List (κ × α)} {k : κ} {v : α}
    (h : mapGet m k = some v) : (k, v) ∈ m := by
  induction m with
  | nil => simp [mapGet] at h
  | cons p rest ih =>
    obtain ⟨k', v'⟩ := p
    simp only [mapGet] at h
    by_cases hk : k' = k
    · subst hk
      rw [if_pos rfl] at h
      cases h
      exact List.mem_cons_self _ _
    · rw [if_neg hk] at h
      exact List.mem_cons_of_mem _ (ih h)

theorem mapGet_eq_none_of_not_mem {κ α : Type} [DecidableEq κ] {m : List (κ × α)} {k : κ}
    (h : ∀ p ∈ m, p.1 ≠ k) : mapGet m k = none := by
  induction m with
  | nil => rfl
  | cons p rest ih =>
    simp only [mapGet]
    rw [if_neg (h p (List.mem_cons_self p rest))]
    exact ih fun q hq => h q (List.mem_cons_of_mem _ hq)

theorem mapGet_mapSet_self {κ α : Type} [DecidableEq κ] (m : List (κ × α)) (k : κ) (v : α) :
    mapGet (mapSet m k v) k = some v := by
  induction m with
  | nil => simp [mapSet, mapGet]
  | cons p rest ih =>
    by_cases hk : p.1 = k
    · simp [mapSet, hk, mapGet]
    · simp [mapSet, hk, mapGet, ih]

theorem mem_mapSet {κ α : Type} [DecidableEq κ] {m : List (κ × α)} {k : κ} {v : α}
    {p : κ × α} (h : p ∈ mapSet m k v) : p = (k, v) ∨ p ∈ m := by
  induction m with
  | nil => simpa [mapSet] using h
  | cons q rest ih =>
    by_cases hk : q.1 = k
    · simp only [mapSet, if_pos hk] at h
      rcases List.mem_cons.mp h with h1 | h1
      · exact Or.inl h1
      · exact Or.inr (List.mem_cons_of_mem _ h1)
    · simp only [mapSet, if_neg hk] at h
      rcases List.mem_cons.mp h with h1 | h1
      · exact Or.inr (h1 ▸ List.mem_cons_self q rest)
      · rcases ih h1 with h2 | h2
        · exact Or.inl h2
        · exact Or.inr (List.mem_cons_of_mem _ h2)

theorem mem_mapDelete {κ α : Type} [DecidableEq κ] {m : List (κ × α)} {k : κ}
    {p : κ × α} (h : p ∈ mapDelete m k) : p ∈ m ∧ p.1 ≠ k := by
  unfold mapDelete at h
  refine ⟨List.mem_of_mem_filter h, ?_⟩
  have := List.of_mem_filter h
  simpa using this

theorem mapGet_mapDelete_self {κ α : Type} [DecidableEq κ] (m : List (κ × α)) (k : κ) :
    mapGet (mapDelete m k) k = none :=
  mapGet_eq_none_of_not_mem fun p hp => (mem_mapDelete hp).2

/-! ### Claim C6 — path validation -/

/-- Claim C6, amended.  `validateSavePath` resolves the candidate and the
root to absolute form and fails with `PathTraversal` unless the resolved
candidate equals or is nested under the resolved root; inside the root it
fails with `InvalidFilename` when the base name starts with `.`; it fails
with `InvalidExtension` when the extension is *nonempty* and not in the
allowed image set (an extensionless base name is accepted — the corrected
part); on success it returns the resolved path, which always lies inside
the root. -/
theorem validateSavePath_spec (cwd customPath allowedBaseDir : String)
    (hp : customPath ≠ "") (hb : allowedBaseDir ≠ "") :
    (insideRoot (resolvedOf cwd customPath) (pathResolve cwd allowedBaseDir) = false →
      validateSavePath cwd customPath allowedBaseDir = .error .pathTraversal) ∧
    (∀ out, validateSavePath cwd customPath allowedBaseDir = .ok out →
      out = resolvedOf cwd customPath ∧
      insideRoot (resolvedOf cwd customPath) (pathResolve cwd allowedBaseDir) = true) ∧
    (insideRoot (resolvedOf cwd customPath) (pathResolve cwd allowedBaseDir) = true →
      startsWithStr (baseNameStr (resolvedOf cwd customPath)) "." = true →
      validateSavePath cwd customPath allowedBaseDir = .error .invalidFilename) ∧
    (insideRoot (resolvedOf cwd customPath) (pathResolve cwd allowedBaseDir) = true →
      ¬(baseNameStr (resolvedOf cwd customPath) = "" ∨
        startsWithStr (baseNameStr (resolvedOf cwd customPath)) "." = true ∨
        strLen (baseNameStr (resolvedOf cwd customPath)) > 255) →
      lowerStr (extnameStr (baseNameStr (resolvedOf cwd customPath))) ≠ "" →
      allowedExtensions.contains
        (lowerStr (extnameStr (baseNameStr (resolvedOf cwd customPath)))) = false →
      validateSavePath cwd customPath allowedBaseDir = .error .invalidExtension) ∧
    (insideRoot (resolvedOf cwd customPath) (pathResolve cwd allowedBaseDir) = true →
      ¬(baseNameStr (resolvedOf cwd customPath) = "" ∨
        startsWithStr (baseNameStr (resolvedOf cwd customPath)) "." = true ∨
        strLen (baseNameStr (resolvedOf cwd customPath)) > 255) →
      (lowerStr (extnameStr (baseNameStr (resolvedOf cwd customPath))) = "" ∨
        allowedExtensions.contains
          (lowerStr (extnameStr (baseNameStr (resolvedOf cwd customPath)))) = true) →
      validateSavePath cwd customPath allowedBaseDir = .ok (resolvedOf cwd customPath)) := by
  unfold validateSavePath insideRoot resolvedOf
  rw [if_neg hp, if_neg hb]
  set R := pathResolve cwd (String.mk (customPath.data.filter (fun c => !(c = '\x00' : Bool))))
  set A := pathResolve cwd allowedBaseDir
  refine ⟨?_, ?_, ?_, ?_, ?_⟩
  · intro h
    rw [if_pos (by simp [h] : (!(startsWithStr R (A ++ "/") || (R = A : Bool))) = true)]
  · intro out h
    by_cases hin : (startsWithStr R (A ++ "/") || (R = A : Bool)) = true
    · rw [if_neg (by simp [hin])] at h
      refine ⟨?_, hin⟩
      dsimp only at h
      by_cases hn : (baseNameStr R = "" ∨ startsWithStr (baseNameStr R) "." = true ∨
          strLen (baseNameStr R) > 255)
      · rw [if_pos hn] at h
        cases h
      · rw [if_neg hn] at h
        by_cases he : (lowerStr (extnameStr (baseNameStr R)) ≠ "" ∧
            (!allowedExtensions.contains (lowerStr (extnameStr (baseNameStr R)))) = true)
        · rw [if_pos he] at h
          cases h
        · rw [if_neg he] at h
          injection h with h
          exact h.symm
    · have hin' : (startsWithStr R (A ++ "/") || (R = A : Bool)) = false :=
        Bool.eq_false_iff.mpr hin
      rw [if_pos (by simp [hin'])] at h
      cases h
  · intro hin hdot
    rw [if_neg (by simp [hin]), if_pos (Or.inr (Or.inl hdot))]
  · intro hin hname hext hcontain
    rw [if_neg (by simp [hin])]
    dsimp only
    rw [if_neg hname, if_pos ⟨hext, by rw [hcontain]; rfl⟩]
  · intro hin hname hext
    rw [if_neg (by simp [hin])]
    dsimp only
    rw [if_neg hname,
        if_neg (by
          rcases hext with h | h
          · simp [h]
          · rw [h]
            simp)]

/-- Claim C6 counterexample to the claim as stated: a base name with *no*
extension is not in the allowed image-type set `{.png, .jpg, .jpeg, .gif,
.webp}`, yet `validateSavePath` succeeds instead of failing with
`InvalidExtension`. -/
theorem validateSavePath_noExtension_counterexample :
    validateSavePath "/home/user" "/safe/dir/img" "/safe/dir" = .ok "/safe/dir/img" ∧
    allowedExtensions.contains (lowerStr (extnameStr (baseNameStr "/safe/dir/img"))) = false := by
  decide

/-- Closed witness for C6: the spec's own examples —
`validatePath("../../etc/passwd", "/safe/dir")` fails with `PathTraversal`
and `validatePath("/safe/dir/img.png", "/safe/dir")` succeeds with the
resolved path (working directory `/home/user`). -/
theorem validateSavePath_spec_witness :
    validateSavePath "/home/user" "../../etc/passwd" "/safe/dir" = .error .pathTraversal ∧
    validateSavePath "/home/user" "/safe/dir/img.png" "/safe/dir" = .ok "/safe/dir/img.png" :=
  ⟨(validateSavePath_spec "/home/user" "../../etc/passwd" "/safe/dir"
      (by decide) (by decide)).1 (by decide),
   (validateSavePath_spec "/home/user" "/safe/dir/img.png" "/safe/dir"
      (by decide) (by decide)).2.2.2.2 (by decide) (by decide) (by decide)⟩

/-! ### Claim C7 — AppleScript sanitizer -/

theorem expandChars_id (f : Char → List Char) :
    ∀ cs : List Char, (∀ c ∈ cs, f c = [c]) → expandChars f cs = cs := by
  intro cs h
  induction cs with
  | nil => rfl
  | cons c rest ih =>
    simp only [expandChars, h c (List.mem_cons_self c rest)]
    simpa using ih fun d hd => h d (List.mem_cons_of_mem _ hd)

theorem filter_id {α : Type} (p : α → Bool) :
    ∀ l : List α, (∀ a ∈ l, p a = true) → l.filter p = l := by
  intro l h
  induction l with
  | nil => rfl
  | cons a rest ih =>
    rw [List.filter_cons_of_pos (h a (List.mem_cons_self a rest))]
    rw [ih fun b hb => h b (List.mem_cons_of_mem _ hb)]

/-- On a nonempty string of `'a'`s the sanitizer is the identity: no stage
touches a plain letter and, in particular, nothing truncates. -/
theorem sanitizeForAppleScript_plain (s : String) (h : s ≠ "")
    (hall : ∀ c ∈ s.data, c = 'a') : sanitizeForAppleScript s = .ok s := by
  unfold sanitizeForAppleScript
  rw [if_neg h]
  dsimp only
  have e1 : expandChars (fun c => if c = '\\' then ['\\', '\\'] else [c]) s.data = s.data :=
    expandChars_id _ _ fun c hc => by rw [hall c hc]; rfl
  have e2 : expandChars (fun c => if c = '"' then ['\\', '"'] else [c]) s.data = s.data :=
    expandChars_id _ _ fun c hc => by rw [hall c hc]; rfl
  have e3 : expandChars (fun c => if c = '\'' then ['\\', '\''] else [c]) s.data = s.data :=
    expandChars_id _ _ fun c hc => by rw [hall c hc]; rfl
  have e4 : expandChars (fun c => if c = '\n' then ['\\', 'n'] else [c]) s.data = s.data :=
    expandChars_id _ _ fun c hc => by rw [hall c hc]; rfl
  have e5 : expandChars (fun c => if c = '\r' then ['\\', 'r'] else [c]) s.data = s.data :=
    expandChars_id _ _ fun c hc => by rw [hall c hc]; rfl
  have e6 : expandChars (fun c => if c = '\t' then ['\\', 't'] else [c]) s.data = s.data :=
    expandChars_id _ _ fun c hc => by rw [hall c hc]; rfl
  have e7 : List.filter (fun c => !(c = '\x00' : Bool)) s.data = s.data :=
    filter_id _ _ fun c hc => by rw [hall c hc]; rfl
  have e8 : List.filter (fun c => !(c.toNat < 0x20 || c.toNat = 0x7F : Bool)) s.data = s.data :=
    filter_id _ _ fun c hc => by rw [hall c hc]; rfl
  rw [e1, e2, e3, e4, e5, e6, e7, e8]

/-- Claim C7, amended.  `sanitizeForAppleScript` rejects empty input with
`InvalidInput`; any nonempty input is accepted, and the output is free of
raw control characters (backslashes, quotes, newlines, carriage returns and
tabs having been escaped, the remaining control characters removed).  It is
a pure function of its input.  Contrary to the claim, newlines/tabs are
escaped as literal `\n`/`\t` sequences rather than collapsed to spaces, and
no truncation to any maximum length is applied (counterexample). -/
theorem sanitizeForAppleScript_spec (s : String) :
    (s = "" → sanitizeForAppleScript s = .error "INVALID_INPUT") ∧
    (s ≠ "" → ∃ out, sanitizeForAppleScript s = .ok out ∧
      ∀ c ∈ out.data, ¬(c.toNat < 0x20 ∨ c.toNat = 0x7F)) := by
  constructor
  · intro h
    unfold sanitizeForAppleScript
    rw [if_pos h]
  · intro h
    unfold sanitizeForAppleScript
    rw [if_neg h]
    refine ⟨_, rfl, ?_⟩
    intro c hc
    have hmem : c ∈ List.filter (fun c => !(decide (c.toNat < 0x20) || decide (c.toNat = 0x7F)))
        (List.filter (fun c => !(decide (c = '\x00')))
          (expandChars (fun c => if c = '\t' then ['\\', 't'] else [c])
            (expandChars (fun c => if c = '\r' then ['\\', 'r'] else [c])
              (expandChars (fun c => if c = '\n' then ['\\', 'n'] else [c])
                (expandChars (fun c => if c = '\'' then ['\\', '\''] else [c])
                  (expandChars (fun c => if c = '"' then ['\\', '"'] else [c])
                    (expandChars (fun c => if c = '\\' then ['\\', '\\'] else [c])
                      s.data))))))) := hc
    have := List.of_mem_filter hmem
    simpa using this

/-- Claim C7 counterexample to the claim as stated: the sanitizer escapes a
newline as the two-character sequence `\n` instead of collapsing it to a
space, and a 4001-character prompt passes through untruncated, exceeding
every claimed cap in the 1000–4000 range. -/
theorem sanitizeForAppleScript_counterexample :
    sanitizeForAppleScript "a\nb" = .ok "a\\nb" ∧ ("a\\nb" : String) ≠ "a b" ∧
    sanitizeForAppleScript (String.mk (List.replicate 4001 'a')) =
      .ok (String.mk (List.replicate 4001 'a')) ∧
    (String.mk (List.replicate 4001 'a')).data.length > 4000 := by
  refine ⟨by decide, by decide, ?_,
    by rw [show (String.mk (List.replicate 4001 'a')).data = List.replicate 4001 'a' from rfl,
           List.length_replicate]; omega⟩
  refine sanitizeForAppleScript_plain _ ?_ fun c hc => List.eq_of_mem_replicate hc
  intro hcon
  have hlen : (String.mk (List.replicate 4001 'a')).data.length = ("" : String).data.length := by
    rw [hcon]
  have h2 : (List.replicate 4001 'a').length = 0 := hlen
  rw [List.length_replicate] at h2
  exact absurd h2 (by decide)

/-- Closed witness for C7: the empty string is rejected, and a concrete
nonempty string is accepted with a control-character-free result. -/
theorem sanitizeForAppleScript_spec_witness :
    (sanitizeForAppleScript "" = .error "INVALID_INPUT") ∧
    (∃ out, sanitizeForAppleScript "hello" = .ok out ∧
      ∀ c ∈ out.data, ¬(c.toNat < 0x20 ∨ c.toNat = 0x7F)) :=
  ⟨(sanitizeForAppleScript_spec "").1 rfl,
   (sanitizeForAppleScript_spec "hello").2 (by decide)⟩

/-! ### Claims C9 / C10 / C4 — `startImageGeneration` guards -/

theorem trimChars_replicate (n : Nat) :
    trimChars (List.replicate n 'a') = List.replicate n 'a' := by
  have hd : ∀ m : Nat, List.dropWhile isWsChar (List.replicate m 'a') = List.replicate m 'a' := by
    intro m
    cases m with
    | zero => rfl
    | succ k =>
      rw [List.replicate_succ, List.dropWhile_cons]
      simp [isWsChar]
  unfold trimChars
  rw [hd, List.reverse_replicate, hd, List.reverse_replicate]

theorem longPrompt_ne_empty : longPrompt ≠ "" := by
  intro hcon
  have hlen : longPrompt.data.length = ("" : String).data.length := by rw [hcon]
  have h2 : (List.replicate 4001 'a').length = 0 := hlen
  rw [List.length_replicate] at h2
  exact absurd h2 (by decide)

theorem trimStr_longPrompt : trimStr longPrompt = longPrompt := by
  unfold trimStr longPrompt
  rw [show (String.mk (List.replicate 4001 'a')).data = List.replicate 4001 'a' from rfl,
      trimChars_replicate]

theorem strLen_longPrompt : strLen longPrompt = 4001 := by
  unfold strLen longPrompt
  rw [show (String.mk (List.replicate 4001 'a')).data = List.replicate 4001 'a' from rfl,
      List.length_replicate]

/-- Claim C9, amended.  A prompt longer than 4000 characters makes
`startImageGeneration` fail — with code `PROMPT_TOO_LONG` (or
`INVALID_INPUT` when the prompt is also blank after trimming), not the
claimed `InvalidInput` in general — and the state is completely unchanged:
no job is created, no id issued, and the rate limiter is not consulted. -/
theorem start_longPrompt_rejected (w : World) (prompt : String)
    (style size conv : Option String) (now : Int) (h : strLen prompt > 4000) :
    ∃ code, startImageGeneration w prompt style size conv now = (.error code, w) ∧
      (code = "INVALID_INPUT" ∨ code = "PROMPT_TOO_LONG") := by
  unfold startImageGeneration
  by_cases h0 : (prompt = "" ∨ trimStr prompt = "")
  · exact ⟨"INVALID_INPUT", by rw [if_pos h0], Or.inl rfl⟩
  · exact ⟨"PROMPT_TOO_LONG", by rw [if_neg h0, if_pos h], Or.inr rfl⟩

/-- Claim C9 counterexample to the claim as stated: a 4001-character prompt
is rejected with the code `PROMPT_TOO_LONG`, which is distinct from the
code `INVALID_INPUT` that the claim names (the code reserves
`INVALID_INPUT` for empty/blank prompts). -/
theorem start_longPrompt_counterexample :
    (startImageGeneration initialWorld longPrompt none none none 0).1 =
      .error "PROMPT_TOO_LONG" ∧
    ("PROMPT_TOO_LONG" : String) ≠ "INVALID_INPUT" ∧
    (startImageGeneration initialWorld longPrompt none none none 0).2 = initialWorld := by
  have h0 : ¬(longPrompt = "" ∨ trimStr longPrompt = "") := by
    rw [not_or]
    exact ⟨longPrompt_ne_empty, by rw [trimStr_longPrompt]; exact longPrompt_ne_empty⟩
  have h4 : strLen longPrompt > 4000 := by rw [strLen_longPrompt]; omega
  refine ⟨?_, by decide, ?_⟩ <;>
    · unfold startImageGeneration
      rw [if_neg h0, if_pos h4]

/-- Closed witness for C9 at the 4001-character prompt. -/
theorem start_longPrompt_rejected_witness :
    strLen longPrompt > 4000 ∧
    ∃ code, startImageGeneration initialWorld longPrompt none none none 0 =
      (.error code, initialWorld) ∧
      (code = "INVALID_INPUT" ∨ code = "PROMPT_TOO_LONG") :=
  ⟨by rw [strLen_longPrompt]; omega,
   start_longPrompt_rejected initialWorld longPrompt none none none 0
     (by rw [strLen_longPrompt]; omega)⟩

/-- When `isAllowed` answers `true`, its successor state has stored the
pruned timestamp list with `now` appended under the key. -/
theorem isAllowed_true_state (rl : RateLimiter) (key : String) (now : Int)
    (h : (rl.isAllowed key now).1 = true) :
    rl.isAllowed key now =
      (true,
       { rl with
         requests :=
           mapSet rl.requests key
             ((((mapGet rl.requests key).getD []).filter
                 (fun time => (now - time < rl.windowMs : Bool))) ++ [now]) }) := by
  by_cases hc : (((mapGet rl.requests key).getD []).filter
      (fun time => (now - time < rl.windowMs : Bool))).length ≥ rl.maxRequests
  · unfold RateLimiter.isAllowed at h
    dsimp only at h
    rw [if_pos hc] at h
    cases h
  · unfold RateLimiter.isAllowed
    dsimp only
    rw [if_neg hc]

/-- Claim C10, confirmed.  A `start` call that passes prompt validation and
the rate-limit check, but is then rejected by the 10-job batch cap, has
already recorded its timestamp with the rate limiter under
`start_image_generation` — it consumes one of the 5 per-minute slots —
while the tracker maps and the id counter are left unchanged. -/
theorem start_batchLimit_consumes_slot (w : World) (prompt : String)
    (style size conv : Option String) (now : Int)
    (hv : ¬(prompt = "" ∨ trimStr prompt = ""))
    (hlen : ¬(strLen prompt > 4000))
    (hrate : (w.limiter.isAllowed "start_image_generation" now).1 = true)
    (hbatch : w.tracker.activeGenerations.length ≥ 10) :
    startImageGeneration w prompt style size conv now =
      (.error "BATCH_LIMIT_EXCEEDED",
       { w with limiter := (w.limiter.isAllowed "start_image_generation" now).2 }) ∧
    mapGet (w.limiter.isAllowed "start_image_generation" now).2.requests
        "start_image_generation" =
      some ((((mapGet w.limiter.requests "start_image_generation").getD []).filter
          (fun time => (now - time < w.limiter.windowMs : Bool))) ++ [now]) := by
  constructor
  · unfold startImageGeneration
    rw [if_neg hv, if_neg hlen]
    dsimp only
    rw [if_neg (by simp [hrate]), if_pos hbatch]
  · rw [isAllowed_true_state _ _ _ hrate]
    exact mapGet_mapSet_self _ _ _

/-- Closed witness for C10: after ten spaced successful starts, an 11th
valid call at t = 122000 hits the batch cap yet its timestamp is recorded. -/
theorem start_batchLimit_consumes_slot_witness :
    startImageGeneration (runEvents initialWorld tenStarts) "p" none none none 122000 =
      (.error "BATCH_LIMIT_EXCEEDED",
       { (runEvents initialWorld tenStarts) with
         limiter := ((runEvents initialWorld tenStarts).limiter.isAllowed
            "start_image_generation" 122000).2 }) ∧
    mapGet ((runEvents initialWorld tenStarts).limiter.isAllowed
        "start_image_generation" 122000).2.requests "start_image_generation" =
      some ((((mapGet (runEvents initialWorld tenStarts).limiter.requests
            "start_image_generation").getD []).filter
          (fun time => (122000 - time <
            (runEvents initialWorld tenStarts).limiter.windowMs : Bool))) ++ [122000]) :=
  start_batchLimit_consumes_slot (runEvents initialWorld tenStarts) "p" none none none 122000
    (by decide) (by decide) (by decide) (by decide)

/-- Claim C4, amended.  A `start` call that passes prompt validation and the
rate-limit check while 10 or more jobs are active fails with
`BatchLimitExceeded` and creates no job (tracker and id counter
unchanged).  Calls stopped earlier by the rate limiter fail with
`RateLimited` instead, even when ≥10 jobs are active (counterexample), so
the spec's "12 attempts" scenario requires the attempts to be spaced so
that each passes the rate limiter; the 11th and 12th such calls then fail
with `BatchLimitExceeded` and no jobs beyond 10 exist (witness). -/
theorem start_batchLimit_rejects (w : World) (prompt : String)
    (style size conv : Option String) (now : Int)
    (hv : ¬(prompt = "" ∨ trimStr prompt = ""))
    (hlen : ¬(strLen prompt > 4000))
    (hrate : (w.limiter.isAllowed "start_image_generation" now).1 = true)
    (hbatch : w.tracker.activeGenerations.length ≥ 10) :
    (startImageGeneration w prompt style size conv now).1 = .error "BATCH_LIMIT_EXCEEDED" ∧
    (startImageGeneration w prompt style size conv now).2.tracker = w.tracker ∧
    (startImageGeneration w prompt style size conv now).2.nextId = w.nextId := by
  unfold startImageGeneration
  rw [if_neg hv, if_neg hlen]
  dsimp only
  rw [if_neg (by simp [hrate]), if_pos hbatch]
  exact ⟨rfl, rfl, rfl⟩

/-- Claim C4 counterexample to the claim as stated: with ten jobs active, a
valid `start` call made while the rate-limit window is still exhausted
fails with `RATE_LIMITED`, not `BATCH_LIMIT_EXCEEDED` — the rate limiter
is checked before the batch cap (so 12 immediate attempts never reach the
batch check at all). -/
theorem start_rateLimited_before_batch_counterexample :
    (runEvents initialWorld tenStarts).tracker.activeGenerations.length = 10 ∧
    (startImageGeneration (runEvents initialWorld tenStarts) "p" none none none 62000).1 =
      .error "RATE_LIMITED" ∧
    ("RATE_LIMITED" : String) ≠ "BATCH_LIMIT_EXCEEDED" := by
  refine ⟨by decide, by decide, by decide⟩

/-- Closed witness for C4: with ten active jobs, the spaced 11th and 12th
valid calls (each passing the rate limiter) fail with
`BATCH_LIMIT_EXCEEDED`, leaving the ten jobs untouched. -/
theorem start_batchLimit_rejects_witness :
    ((startImageGeneration (runEvents initialWorld tenStarts)
        "p" none none none 122000).1 = .error "BATCH_LIMIT_EXCEEDED" ∧
     (startImageGeneration (runEvents initialWorld tenStarts)
        "p" none none none 122000).2.tracker = (runEvents initialWorld tenStarts).tracker ∧
     (startImageGeneration (runEvents initialWorld tenStarts)
        "p" none none none 122000).2.nextId = (runEvents initialWorld tenStarts).nextId) ∧
    ((startImageGeneration (startImageGeneration (runEvents initialWorld tenStarts)
        "p" none none none 122000).2 "q" none none none 123000).1 =
          .error "BATCH_LIMIT_EXCEEDED" ∧
     (startImageGeneration (startImageGeneration (runEvents initialWorld tenStarts)
        "p" none none none 122000).2 "q" none none none 123000).2.tracker =
       (startImageGeneration (runEvents initialWorld tenStarts)
        "p" none none none 122000).2.tracker ∧
     (startImageGeneration (startImageGeneration (runEvents initialWorld tenStarts)
        "p" none none none 122000).2 "q" none none none 123000).2.nextId =
       (startImageGeneration (runEvents initialWorld tenStarts)
        "p" none none none 122000).2.nextId) :=
  ⟨start_batchLimit_rejects (runEvents initialWorld tenStarts) "p" none none none 122000
     (by decide) (by decide) (by decide) (by decide),
   start_batchLimit_rejects _ "q" none none none 123000
     (by decide) (by decide) (by decide) (by decide)⟩

/-! ### Tracker invariants (claims C3 and C1) -/

/-- `checkGenerationStatus` either leaves the tracker untouched, or retires
an id that is present in one of the two maps into a terminal completed
record, deleting it from the active map in the same step. -/
theorem checkStatus_state (t : AsyncGenerationTracker) (id : Nat)
    (ui : Option UIStatus) (now : Int) :
    (checkGenerationStatus t id ui now).2 = t ∨
    ∃ r : GenerationStatus,
      (r.status = GStatus.completed ∨ r.status = GStatus.failed) ∧
      ((∃ p ∈ t.activeGenerations, p.1 = id) ∨
        (∃ q ∈ t.completedGenerations, q.1 = id)) ∧
      (checkGenerationStatus t id ui now).2 =
        { activeGenerations := mapDelete t.activeGenerations id,
          completedGenerations := mapSet t.completedGenerations id r } := by
  have hmemOf : ∀ s, t.getStatus id = some s →
      ((∃ p ∈ t.activeGenerations, p.1 = id) ∨
        (∃ q ∈ t.completedGenerations, q.1 = id)) := by
    intro s hs
    unfold AsyncGenerationTracker.getStatus at hs
    cases hc : mapGet t.completedGenerations id with
    | some c => exact Or.inr ⟨(id, c), mapGet_mem hc, rfl⟩
    | none =>
      rw [hc] at hs
      cases ha : mapGet t.activeGenerations id with
      | some a => exact Or.inl ⟨(id, a), mapGet_mem ha, rfl⟩
      | none =>
        rw [ha] at hs
        cases hs
  cases hg : t.getStatus id with
  | none =>
    left
    unfold checkGenerationStatus
    rw [hg]
  | some status =>
    unfold checkGenerationStatus
    rw [hg]
    dsimp only
    by_cases hs : status.status = GStatus.generating
    · rw [if_pos hs]
      cases ui with
      | none => exact Or.inl rfl
      | some u =>
        dsimp only
        by_cases hcomp : (u.isGenerating = false ∧ u.hasRecentImage = true ∧
            u.imageCount > 0)
        · rw [if_pos hcomp]
          exact Or.inr ⟨_, Or.inl rfl, hmemOf status hg, rfl⟩
        · rw [if_neg hcomp]
          by_cases htime : status.timestamp < now - 30 * 60 * 1000
          · rw [if_pos htime]
            exact Or.inr ⟨_, Or.inr rfl, hmemOf status hg, rfl⟩
          · rw [if_neg htime]
            exact Or.inl rfl
    · rw [if_neg hs]
      exact Or.inl rfl

/-- Retiring an already-issued id (delete from active, store a terminal
record under it in completed) preserves the world invariant. -/
theorem inv_retire (w : World) (inv : WorldInv w) (id : Nat) (r : GenerationStatus)
    (hr : r.status = GStatus.completed ∨ r.status = GStatus.failed)
    (hid : id < w.nextId) :
    WorldInv
      { w with tracker :=
        { activeGenerations := mapDelete w.tracker.activeGenerations id,
          completedGenerations := mapSet w.tracker.completedGenerations id r } } := by
  refine ⟨?_, ?_, ?_, ?_⟩
  · intro p hp
    exact inv.activeBound p (mem_mapDelete hp).1
  · intro q hq
    rcases mem_mapSet hq with h | h
    · rw [h]
      exact hid
    · exact inv.completedBound q h
  · intro p hp q hq
    rcases mem_mapSet hq with h | h
    · rw [h]
      exact (mem_mapDelete hp).2
    · exact inv.keysApart p (mem_mapDelete hp).1 q h
  · intro q hq
    rcases mem_mapSet hq with h | h
    · rw [h]
      exact hr
    · exact inv.terminalOnly q h

/-- `cleanup` only ever removes entries. -/
theorem cleanup_subset (t : AsyncGenerationTracker) (now : Int) :
    (∀ p ∈ (t.cleanup now).activeGenerations, p ∈ t.activeGenerations) ∧
    (∀ q ∈ (t.cleanup now).completedGenerations, q ∈ t.completedGenerations) := by
  unfold AsyncGenerationTracker.cleanup
  dsimp only
  constructor
  · intro p hp
    split at hp
    · exact List.mem_of_mem_filter hp
    · exact hp
  · intro q hq
    split at hq
    · exact List.mem_of_mem_filter (List.mem_of_mem_filter hq)
    · exact List.mem_of_mem_filter hq

theorem inv_start (w : World) (inv : WorldInv w) (prompt : String)
    (style size conv : Option String) (now : Int) :
    WorldInv (stepWorld w (Event.start prompt style size conv now)) := by
  unfold stepWorld startImageGeneration
  dsimp only
  split_ifs with h1 h2 h3 h4
  · exact ⟨inv.activeBound, inv.completedBound, inv.keysApart, inv.terminalOnly⟩
  · exact ⟨inv.activeBound, inv.completedBound, inv.keysApart, inv.terminalOnly⟩
  · exact ⟨inv.activeBound, inv.completedBound, inv.keysApart, inv.terminalOnly⟩
  · exact ⟨inv.activeBound, inv.completedBound, inv.keysApart, inv.terminalOnly⟩
  · refine ⟨?_, ?_, ?_, ?_⟩
    · intro p hp
      rcases mem_mapSet hp with h | h
      · rw [h]
        exact Nat.lt_succ_self _
      · exact Nat.lt_succ_of_lt (inv.activeBound p h)
    · intro q hq
      exact Nat.lt_succ_of_lt (inv.completedBound q hq)
    · intro p hp q hq
      rcases mem_mapSet hp with h | h
      · rw [h]
        exact fun he => absurd (inv.completedBound q hq) (by rw [← he]; exact lt_irrefl _)
      · exact inv.keysApart p h q hq
    · intro q hq
      exact inv.terminalOnly q hq

theorem inv_check (w : World) (inv : WorldInv w) (id : Nat)
    (ui : Option UIStatus) (now : Int) :
    WorldInv (stepWorld w (Event.check id ui now)) := by
  rcases checkStatus_state w.tracker id ui now with h | ⟨r, hr, hmem, hsnd⟩
  · unfold stepWorld
    dsimp only
    rw [h]
    exact ⟨inv.activeBound, inv.completedBound, inv.keysApart, inv.terminalOnly⟩
  · unfold stepWorld
    dsimp only
    rw [hsnd]
    have hid : id < w.nextId := by
      rcases hmem with ⟨p, hp, hpe⟩ | ⟨q, hq, hqe⟩
      · exact hpe ▸ inv.activeBound p hp
      · exact hqe ▸ inv.completedBound q hq
    exact inv_retire w inv id r hr hid

theorem inv_triggerFail (w : World) (inv : WorldInv w) (id : Nat)
    (prompt err : String) (now : Int)
    (hok : eventOK w (Event.triggerFail id prompt err now) = true) :
    WorldInv (stepWorld w (Event.triggerFail id prompt err now)) := by
  have hid : id < w.nextId := by simpa [eventOK] using hok
  exact inv_retire w inv id _ (Or.inr rfl) hid

theorem inv_cleanup (w : World) (inv : WorldInv w) (now : Int) :
    WorldInv (stepWorld w (Event.cleanupTick now)) := by
  have hsub := cleanup_subset w.tracker now
  exact ⟨fun p hp => inv.activeBound p (hsub.1 p hp),
         fun q hq => inv.completedBound q (hsub.2 q hq),
         fun p hp q hq => inv.keysApart p (hsub.1 p hp) q (hsub.2 q hq),
         fun q hq => inv.terminalOnly q (hsub.2 q hq)⟩

theorem invariant_step (w : World) (e : Event) (inv : WorldInv w)
    (hok : eventOK w e = true) : WorldInv (stepWorld w e) := by
  cases e with
  | start prompt style size conv now => exact inv_start w inv prompt style size conv now
  | check id ui now => exact inv_check w inv id ui now
  | triggerFail id prompt err now => exact inv_triggerFail w inv id prompt err now hok
  | cleanupTick now => exact inv_cleanup w inv now

theorem invariant_run (w : World) (es : List Event) (inv : WorldInv w)
    (hok : okTrace w es = true) : WorldInv (runEvents w es) := by
  induction es generalizing w with
  | nil => exact inv
  | cons e rest ih =>
    simp only [okTrace, Bool.and_eq_true] at hok
    exact ih (stepWorld w e) (invariant_step w e inv hok.1) hok.2

theorem invariant_initial : WorldInv initialWorld :=
  ⟨fun p hp => absurd hp (List.not_mem_nil p),
   fun q hq => absurd hq (List.not_mem_nil q),
   fun p hp _ _ => absurd hp (List.not_mem_nil p),
   fun q hq => absurd hq (List.not_mem_nil q)⟩

/-- Claim C3, confirmed.  At every observable point of every feasible
execution (any prefix of a feasible trace is itself a feasible trace, so
all reachable states are covered), a generation id is present in at most
one of `activeGenerations` and `completedGenerations` — never both; the
per-step lemmas show each transition that stores a completed record also
deletes the id from the active map within the same step. -/
theorem tracker_maps_disjoint (es : List Event)
    (h : okTrace initialWorld es = true) (id : Nat) :
    ¬(id ∈ (runEvents initialWorld es).tracker.activeGenerations.map Prod.fst ∧
      id ∈ (runEvents initialWorld es).tracker.completedGenerations.map Prod.fst) := by
  rintro ⟨hact, hcom⟩
  obtain ⟨p, hp, hpe⟩ := List.mem_map.mp hact
  obtain ⟨q, hq, hqe⟩ := List.mem_map.mp hcom
  exact (invariant_run initialWorld es invariant_initial h).keysApart p hp q hq
    (by rw [hpe, hqe])

/-- Closed witness for C3: after a `start` and a completing status check,
id 0 lives only in the completed map. -/
theorem tracker_maps_disjoint_witness :
    okTrace initialWorld
      [Event.start "a" none none none 0,
       Event.check 0 (some ⟨false, true, 1⟩) 5] = true ∧
    ¬(0 ∈ (runEvents initialWorld
        [Event.start "a" none none none 0,
         Event.check 0 (some ⟨false, true, 1⟩) 5]).tracker.activeGenerations.map Prod.fst ∧
      0 ∈ (runEvents initialWorld
        [Event.start "a" none none none 0,
         Event.check 0 (some ⟨false, true, 1⟩) 5]).tracker.completedGenerations.map Prod.fst) :=
  ⟨by decide,
   tracker_maps_disjoint
     [Event.start "a" none none none 0, Event.check 0 (some ⟨false, true, 1⟩) 5]
     (by decide) 0⟩

/-! ### Claim C1 — terminal statuses and later status queries -/

theorem runEvents_append (w : World) (es1 es2 : List Event) :
    runEvents w (es1 ++ es2) = runEvents (runEvents w es1) es2 := by
  unfold runEvents
  exact List.foldl_append _ _ _ _

theorem okTrace_append (w : World) (es1 es2 : List Event) :
    okTrace w (es1 ++ es2) = (okTrace w es1 && okTrace (runEvents w es1) es2) := by
  induction es1 generalizing w with
  | nil => simp [okTrace, runEvents]
  | cons e rest ih =>
    show (eventOK w e && okTrace (stepWorld w e) (rest ++ es2)) =
      (eventOK w e && okTrace (stepWorld w e) rest &&
        okTrace (runEvents (stepWorld w e) rest) es2)
    rw [ih (stepWorld w e)]
    exact (Bool.and_assoc _ _ _).symm

/-- No transition ever puts a retired id back into the active map, and the
id counter never moves down past it. -/
theorem retired_step (w : World) (e : Event) (id : Nat)
    (h : IdRetired w id) : IdRetired (stepWorld w e) id := by
  obtain ⟨hact, hlt⟩ := h
  cases e with
  | start prompt style size conv now =>
    unfold stepWorld startImageGeneration
    dsimp only
    split_ifs with h1 h2 h3 h4
    · exact ⟨hact, hlt⟩
    · exact ⟨hact, hlt⟩
    · exact ⟨hact, hlt⟩
    · exact ⟨hact, hlt⟩
    · refine ⟨?_, Nat.lt_succ_of_lt hlt⟩
      intro p hp
      rcases mem_mapSet hp with hh | hh
      · rw [hh]
        exact fun he => absurd hlt (by rw [← he]; exact Nat.lt_irrefl _)
      · exact hact p hh
  | check cid ui now =>
    unfold stepWorld
    dsimp only
    rcases checkStatus_state w.tracker cid ui now with hcs | ⟨r, _, _, hsnd⟩
    · rw [hcs]
      exact ⟨hact, hlt⟩
    · rw [hsnd]
      exact ⟨fun p hp => hact p (mem_mapDelete hp).1, hlt⟩
  | triggerFail tid prompt err now =>
    unfold stepWorld triggerFailure
    dsimp only
    exact ⟨fun p hp => hact p (mem_mapDelete hp).1, hlt⟩
  | cleanupTick now =>
    unfold stepWorld
    dsimp only
    exact ⟨fun p hp => hact p ((cleanup_subset w.tracker now).1 p hp), hlt⟩

theorem retired_run (w : World) (es : List Event) (id : Nat)
    (h : IdRetired w id) : IdRetired (runEvents w es) id := by
  induction es generalizing w with
  | nil => exact h
  | cons e rest ih => exact ih (stepWorld w e) (retired_step w e id h)

/-- A status query for a retired id can only answer "not found" or a
terminal record (the completed map holds terminal records only). -/
theorem check_of_retired (w : World) (id : Nat) (ui : Option UIStatus) (now : Int)
    (inv : WorldInv w) (h : IdRetired w id) :
    (checkGenerationStatus w.tracker id ui now).1 = none ∨
    ∃ st, (checkGenerationStatus w.tracker id ui now).1 = some st ∧
      (st.status = GStatus.completed ∨ st.status = GStatus.failed) := by
  unfold checkGenerationStatus AsyncGenerationTracker.getStatus
  cases hc : mapGet w.tracker.completedGenerations id with
  | none =>
    rw [mapGet_eq_none_of_not_mem h.1]
    exact Or.inl rfl
  | some c =>
    have hterm := inv.terminalOnly _ (mapGet_mem hc)
    dsimp only
    have hne : ¬(c.status = GStatus.generating) := by
      rcases hterm with h1 | h1 <;> rw [h1] <;> intro hcon <;> cases hcon
    rw [if_neg hne]
    exact Or.inr ⟨c, rfl, hterm⟩

/-- When a status query answers with a terminal record, that record is
stored under the id in the successor tracker's completed map. -/
theorem terminal_return_completed (t : AsyncGenerationTracker) (id : Nat)
    (ui : Option UIStatus) (now : Int) (st : GenerationStatus)
    (h : (checkGenerationStatus t id ui now).1 = some st)
    (hst : st.status = GStatus.completed ∨ st.status = GStatus.failed) :
    mapGet (checkGenerationStatus t id ui now).2.completedGenerations id = some st := by
  have hneq : ¬(GStatus.generating = GStatus.completed ∨
      GStatus.generating = GStatus.failed) := by decide
  unfold checkGenerationStatus at h ⊢
  cases hg : t.getStatus id with
  | none =>
    rw [hg] at h
    dsimp only at h
    exact Option.noConfusion h
  | some status =>
    rw [hg] at h
    dsimp only at h ⊢
    by_cases hs : status.status = GStatus.generating
    · rw [if_pos hs] at h ⊢
      cases ui with
      | none =>
        dsimp only at h ⊢
        injection h with h
        rw [← h, hs] at hst
        exact absurd hst hneq
      | some u =>
        dsimp only at h ⊢
        by_cases hcomp : (u.isGenerating = false ∧ u.hasRecentImage = true ∧
            u.imageCount > 0)
        · rw [if_pos hcomp] at h ⊢
          injection h with h
          rw [← h]
          exact mapGet_mapSet_self _ _ _
        · rw [if_neg hcomp] at h ⊢
          by_cases htime : status.timestamp < now - 30 * 60 * 1000
          · rw [if_pos htime] at h ⊢
            injection h with h
            rw [← h]
            exact mapGet_mapSet_self _ _ _
          · rw [if_neg htime] at h ⊢
            injection h with h
            rw [← h, hs] at hst
            exact absurd hst hneq
    · rw [if_neg hs] at h ⊢
      dsimp only at h ⊢
      injection h with h
      subst h
      unfold AsyncGenerationTracker.getStatus at hg
      cases hc : mapGet t.completedGenerations id with
      | some c =>
        rw [hc] at hg
        dsimp only at hg
        injection hg with hg
        rw [hg]
      | none =>
        rw [hc] at hg
        cases ha : mapGet t.activeGenerations id with
        | some a =>
          rw [ha] at hg
          dsimp only at hg
          injection hg with hg
          exact absurd (by rw [← hg]) hs
        | none =>
          rw [ha] at hg
          dsimp only at hg
          exact Option.noConfusion hg

/-- Claim C1, amended.  Once a `checkGenerationStatus` call has answered a
terminal (`completed`/`failed`) status for an id, no later call in any
feasible continuation of the execution ever answers `pending` or
`generating` for that id: every later answer is either `null` (the hourly
cleanup may evict the record) or a terminal status.  The terminal *record*
itself is not immutable — the detached trigger-failure callback may
overwrite a `completed` record with a `failed` one (counterexample). -/
theorem check_terminal_monotone (es1 : List Event) (id : Nat)
    (ui : Option UIStatus) (now : Int) (st : GenerationStatus)
    (es2 : List Event) (ui2 : Option UIStatus) (now2 : Int)
    (h1 : okTrace initialWorld (es1 ++ Event.check id ui now :: es2) = true)
    (h2 : (checkGenerationStatus (runEvents initialWorld es1).tracker id ui now).1 =
      some st)
    (h3 : st.status = GStatus.completed ∨ st.status = GStatus.failed) :
    (checkGenerationStatus
        (runEvents initialWorld (es1 ++ Event.check id ui now :: es2)).tracker
        id ui2 now2).1 = none ∨
    ∃ st2,
      (checkGenerationStatus
          (runEvents initialWorld (es1 ++ Event.check id ui now :: es2)).tracker
          id ui2 now2).1 = some st2 ∧
      (st2.status = GStatus.completed ∨ st2.status = GStatus.failed) := by
  rw [okTrace_append, Bool.and_eq_true] at h1
  obtain ⟨hok1, hok2⟩ := h1
  simp only [okTrace, Bool.and_eq_true] at hok2
  obtain ⟨-, hok3⟩ := hok2
  have hrw : runEvents initialWorld (es1 ++ Event.check id ui now :: es2) =
      runEvents (stepWorld (runEvents initialWorld es1) (Event.check id ui now)) es2 := by
    rw [runEvents_append]
    rfl
  rw [hrw]
  have inv1 : WorldInv (runEvents initialWorld es1) :=
    invariant_run initialWorld es1 invariant_initial hok1
  have inv2 : WorldInv (stepWorld (runEvents initialWorld es1) (Event.check id ui now)) :=
    invariant_step _ _ inv1 rfl
  have hmem : mapGet (stepWorld (runEvents initialWorld es1)
      (Event.check id ui now)).tracker.completedGenerations id = some st :=
    terminal_return_completed _ id ui now st h2 h3
  have hret2 : IdRetired (stepWorld (runEvents initialWorld es1)
      (Event.check id ui now)) id :=
    ⟨fun p hp => inv2.keysApart p hp (id, st) (mapGet_mem hmem),
     inv2.completedBound (id, st) (mapGet_mem hmem)⟩
  exact check_of_retired _ id ui2 now2
    (invariant_run _ es2 inv2 hok3) (retired_run _ es2 id hret2)

/-- Claim C1 counterexample to the claim as stated: after a status query has
returned `completed` for id 0, the detached trigger-failure callback (a
feasible event: the fire-and-forget AppleScript call can reject at any
later time) overwrites the stored record, and the next status query
returns a *different* terminal record — `failed` with an error message —
so the terminal record does change. -/
theorem check_terminal_changes_counterexample :
    okTrace initialWorld
      [Event.start "cat" none none none 0,
       Event.check 0 (some ⟨false, true, 1⟩) 5,
       Event.triggerFail 0 "cat" "boom" 6] = true ∧
    (checkGenerationStatus
        (runEvents initialWorld [Event.start "cat" none none none 0]).tracker
        0 (some ⟨false, true, 1⟩) 5).1 =
      some { id := 0, status := .completed, prompt := "cat", timestamp := 5,
             error := none, imagePath := none } ∧
    (checkGenerationStatus
        (runEvents initialWorld
          [Event.start "cat" none none none 0,
           Event.check 0 (some ⟨false, true, 1⟩) 5,
           Event.triggerFail 0 "cat" "boom" 6]).tracker
        0 (some ⟨false, true, 1⟩) 7).1 =
      some { id := 0, status := .failed, prompt := "cat", timestamp := 6,
             error := some "boom", imagePath := none } ∧
    ({ id := 0, status := GStatus.failed, prompt := "cat", timestamp := 6,
       error := some "boom", imagePath := none } : GenerationStatus) ≠
      { id := 0, status := GStatus.completed, prompt := "cat", timestamp := 5,
        error := none, imagePath := none } := by
  refine ⟨by decide, by decide, by decide, by decide⟩

/-- Closed witness for C1: after `start` and a completing check, a further
status query returns `null` or a terminal status (here: the terminal
branch holds). -/
theorem check_terminal_monotone_witness :
    (checkGenerationStatus
        (runEvents initialWorld
          ([Event.start "cat" none none none 0] ++
            Event.check 0 (some ⟨false, true, 1⟩) 5 :: [])).tracker
        0 (some ⟨false, true, 1⟩) 7).1 = none ∨
    ∃ st2,
      (checkGenerationStatus
          (runEvents initialWorld
            ([Event.start "cat" none none none 0] ++
              Event.check 0 (some ⟨false, true, 1⟩) 5 :: [])).tracker
          0 (some ⟨false, true, 1⟩) 7).1 = some st2 ∧
      (st2.status = GStatus.completed ∨ st2.status = GStatus.failed) :=
  check_terminal_monotone [Event.start "cat" none none none 0] 0
    (some ⟨false, true, 1⟩) 5
    { id := 0, status := .completed, prompt := "cat", timestamp := 5,
      error := none, imagePath := none }
    [] (some ⟨false, true, 1⟩) 7 (by decide) (by decide) (Or.inl rfl)

/-! ### Claim C2 — 30-minute timeout -/

/-- Claim C2, amended.  For a job still in the active set whose
`started_at` lies more than 30 minutes before `now`, the next
`checkGenerationStatus` call — provided the UI poll result is available
and does not report completion (completion is checked first and wins) —
transitions the job to `failed` with error `"Generation timeout"`, removes
it from the active map, stores the failed record in the completed map, and
returns that record. -/
theorem checkStatus_timeout (t : AsyncGenerationTracker) (id : Nat)
    (a : AsyncImageGeneration) (u : UIStatus) (now : Int)
    (hc : mapGet t.completedGenerations id = none)
    (ha : mapGet t.activeGenerations id = some a)
    (ht : a.started_at < now - 30 * 60 * 1000)
    (hu : ¬(u.isGenerating = false ∧ u.hasRecentImage = true ∧ u.imageCount > 0)) :
    checkGenerationStatus t id (some u) now =
      (some { id := id, status := .failed, prompt := a.prompt, timestamp := now,
              error := some "Generation timeout", imagePath := none },
       { activeGenerations := mapDelete t.activeGenerations id,
         completedGenerations :=
           mapSet t.completedGenerations id
             { id := id, status := .failed, prompt := a.prompt, timestamp := now,
               error := some "Generation timeout", imagePath := none } }) := by
  unfold checkGenerationStatus AsyncGenerationTracker.getStatus
  rw [hc, ha]
  dsimp only
  rw [if_pos rfl, if_neg hu, if_pos ht]

/-- Claim C2 counterexample to the claim as stated: a job 31 minutes old is
*not* failed with `GenerationTimeout` when the UI poll reports a finished
image — the completion check runs first, so the job transitions to
`completed`. -/
theorem checkStatus_timeout_counterexample :
    (checkGenerationStatus
      { activeGenerations :=
          [(0, { id := 0, prompt := "p", style := none, size := none,
                 conversation_id := none, started_at := 0 })],
        completedGenerations := [] }
      0 (some { isGenerating := false, hasRecentImage := true, imageCount := 1 })
      1860000).1 =
      some { id := 0, status := .completed, prompt := "p", timestamp := 1860000,
             error := none, imagePath := none } ∧
    GStatus.completed ≠ GStatus.failed := by
  refine ⟨by decide, by decide⟩

/-- Closed witness for C2: a 31-minute-old job whose UI poll shows the
generation indicator still present is failed with `"Generation timeout"`
and moved out of the active map. -/
theorem checkStatus_timeout_witness :
    checkGenerationStatus
      { activeGenerations :=
          [(0, { id := 0, prompt := "p", style := none, size := none,
                 conversation_id := none, started_at := 0 })],
        completedGenerations := [] }
      0 (some { isGenerating := true, hasRecentImage := false, imageCount := 0 })
      1860000 =
      (some { id := 0, status := .failed, prompt := "p", timestamp := 1860000,
              error := some "Generation timeout", imagePath := none },
       { activeGenerations :=
           mapDelete [(0, { id := 0, prompt := "p", style := none, size := none,
                            conversation_id := none, started_at := 0 })] 0,
         completedGenerations :=
           mapSet [] 0
             { id := 0, status := .failed, prompt := "p", timestamp := 1860000,
               error := some "Generation timeout", imagePath := none } }) :=
  checkStatus_timeout _ 0
    { id := 0, prompt := "p", style := none, size := none,
      conversation_id := none, started_at := 0 }
    { isGenerating := true, hasRecentImage := false, imageCount := 0 } 1860000
    (by decide) (by decide) (by decide) (by decide)

/-! ### Claim C8 — executor retry policy -/

/-- Claim C8, amended.  The executor retries a failed attempt exactly when
the error message matches a known-transient pattern AND attempts remain
(at most `retries` total attempts — 3 by default, i.e. 2 retries), waiting
exactly `min(1000 · 2^(attempt−1), 5000)` ms with no added jitter before
the retry; a non-transient error, or exhaustion of attempts, returns the
failure immediately; a successful attempt returns the raw result at once. -/
theorem runAppleScript_retry_spec (outcome : Nat → Except String String)
    (retries attempt : Nat) (h1 : 1 ≤ attempt) (h2 : attempt ≤ retries) :
    (∀ r, outcome attempt = .ok r →
      runAttempts outcome retries attempt (retries + 1 - attempt) =
        (⟨true, some r, none⟩, [])) ∧
    (∀ msg, outcome attempt = .error msg → isRetryableError msg = false →
      runAttempts outcome retries attempt (retries + 1 - attempt) =
        (⟨false, none, some msg⟩, [])) ∧
    (∀ msg, outcome attempt = .error msg → attempt = retries →
      runAttempts outcome retries attempt (retries + 1 - attempt) =
        (⟨false, none, some msg⟩, [])) ∧
    (∀ msg, outcome attempt = .error msg → isRetryableError msg = true → attempt < retries →
      runAttempts outcome retries attempt (retries + 1 - attempt) =
        ((runAttempts outcome retries (attempt + 1) (retries - attempt)).1,
         min (1000 * 2 ^ (attempt - 1)) 5000 ::
           (runAttempts outcome retries (attempt + 1) (retries - attempt)).2)) ∧
    runAppleScript outcome 3 = runAttempts outcome 3 1 3 := by
  have hfuel : retries + 1 - attempt = (retries - attempt) + 1 := by omega
  rw [hfuel]
  refine ⟨?_, ?_, ?_, ?_, rfl⟩
  · intro r h
    simp only [runAttempts, h]
  · intro msg h hret
    simp only [runAttempts, h]
    rw [if_neg (by simp [hret])]
  · intro msg h heq
    simp only [runAttempts, h]
    rw [if_neg (by simp [heq])]
  · intro msg h hret hlt
    simp only [runAttempts, h]
    rw [if_pos (by simp [hret, hlt])]

/-- Claim C8 counterexample to the claim as stated: after the first attempt
fails with a transient error, the code waits exactly 1000 ms — the claimed
`min(base · 2^attempt, cap) = min(1000 · 2^1, 5000) = 2000` plus
non-negative jitter can never equal 1000, and the recorded delay is
deterministic (no jitter term exists in the code). -/
theorem runAppleScript_delay_counterexample :
    runAppleScript (fun a => if a = 1 then .error "timeout" else .ok "done") 3 =
      (⟨true, some "done", none⟩, [1000]) ∧
    min (1000 * 2 ^ 1) 5000 = 2000 ∧ (1000 : Nat) ≠ 2000 :=
  ⟨by decide, by decide, by decide⟩

/-- Closed witness for C8: a transient first failure with attempts
remaining produces exactly the capped exponential-backoff delay and
recurses into attempt 2. -/
theorem runAppleScript_retry_spec_witness :
    runAttempts (fun a => if a = 1 then .error "busy" else .ok "ok") 3 1 (3 + 1 - 1) =
      ((runAttempts (fun a => if a = 1 then .error "busy" else .ok "ok") 3 2 (3 - 1)).1,
       min (1000 * 2 ^ (1 - 1)) 5000 ::
         (runAttempts (fun a => if a = 1 then .error "busy" else .ok "ok") 3 2 (3 - 1)).2) :=
  (runAppleScript_retry_spec (fun a => if a = 1 then .error "busy" else .ok "ok") 3 1
    (by decide) (by decide)).2.2.2.1 "busy" rfl (by decide) (by decide)

/-! ### Claim C5 — sliding-window rate limiter -/

/-- Claim C5, confirmed.  With the `globalRateLimiter` parameters (limit 5,
window 60000 ms), `isAllowed` prunes the recorded timestamps to those less
than one window old, and: when fewer than 5 remain it returns `true` and
stores the pruned list with the current timestamp appended; otherwise it
returns `false` and leaves the limiter state untouched.  The 6th call
within one window therefore returns `false`, and a call made a full window
after the recorded timestamps returns `true` again (witness). -/
theorem isAllowed_sliding_window (rl : RateLimiter) (key : String) (now : Int)
    (hmax : rl.maxRequests = 5) (hwin : rl.windowMs = 60000) :
    ((((mapGet rl.requests key).getD []).filter
        (fun time => (now - time < 60000 : Bool))).length < 5 →
      rl.isAllowed key now =
        (true,
         { rl with
           requests := mapSet rl.requests key
             ((((mapGet rl.requests key).getD []).filter
                 (fun time => (now - time < 60000 : Bool))) ++ [now]) })) ∧
    (¬ ((((mapGet rl.requests key).getD []).filter
        (fun time => (now - time < 60000 : Bool))).length < 5) →
      rl.isAllowed key now = (false, rl)) := by
  constructor
  · intro h
    simp only [RateLimiter.isAllowed, hmax, hwin]
    rw [if_neg (by omega)]
  · intro h
    simp only [RateLimiter.isAllowed, hmax, hwin]
    rw [if_pos (by omega)]

/-- Closed witness for C5: a limiter that has recorded five requests at
time 0 rejects a 6th call at time 1 (inside the window) without changing
state, and accepts a call at time 60000 (window elapsed), recording only
the new timestamp. -/
theorem isAllowed_sliding_window_witness :
    (({ requests := [("k", [0, 0, 0, 0, 0])], maxRequests := 5, windowMs := 60000 } :
        RateLimiter).isAllowed "k" 1 =
      (false, { requests := [("k", [0, 0, 0, 0, 0])], maxRequests := 5, windowMs := 60000 })) ∧
    (({ requests := [("k", [0, 0, 0, 0, 0])], maxRequests := 5, windowMs := 60000 } :
        RateLimiter).isAllowed "k" 60000 =
      (true, { requests := [("k", [60000])], maxRequests := 5, windowMs := 60000 })) :=
  ⟨(isAllowed_sliding_window _ "k" 1 rfl rfl).2 (by decide),
   (isAllowed_sliding_window _ "k" 60000 rfl rfl).1 (by decide)⟩
